import Mathlib

/-!
Shallow embedding of the zakat-calculator pipeline core
(`src/scripts/fetch_all.py`) and proofs of its stated properties.

Modelling conventions:
* Python floats are modelled as exact rationals (`ℚ`); the arithmetic in the
  source is plain field arithmetic, so its exact content lives in `ℚ`.
* Python's `round(x, 4)` is modelled as exact round-half-to-even at four
  decimal places (`round4` below), matching Python's documented rounding mode.
* A Python dict read with `d.get(key, default)` is modelled as an `Option`
  field read with `Option.getD`.
* An FX rate table is a partial map from currency codes to rationals.
-/

/-- An FX rate table: units of the keyed currency per one unit of the base
currency, absent when the code is not in the table. -/
def FxTable : Type := String → Option ℚ

/-- Round-half-to-even of a rational to an integer (Python's `round` mode). -/
def roundHalfEven (q : ℚ) : ℤ :=
  if Int.fract q < 1/2 then ⌊q⌋
  else if 1/2 < Int.fract q then ⌊q⌋ + 1
  else if ⌊q⌋ % 2 = 0 then ⌊q⌋ else ⌊q⌋ + 1

/-- Python's `round(q, 4)`: round-half-to-even at four decimal places. -/
def round4 (q : ℚ) : ℚ := (roundHalfEven (q * 10000) : ℚ) / 10000

/-- The market-cap currency derived from the trading currency
(`fetch_all.py` lines 303-305): minor-unit pence codes collapse to `"GBP"`. -/
def mcapCurrency (trade_curr : String) : String :=
  if trade_curr = "GBp" ∨ trade_curr = "GBX" then "GBP" else trade_curr

/-- Embeds `fx_rates.get(code, 1)`: the table's rate for a code, or `1` when the
code is absent (`fetch_all.py` lines 308-309). -/
def fxRate (fx : FxTable) (c : String) : ℚ := (fx c).getD 1

/-- The currency-normalization step of `_convert_and_calc_pct`
(`fetch_all.py` lines 303-311): convert `amount` from the financial currency
into the market-cap currency (the trading currency with minor-unit codes
collapsed), skipping the conversion when either resolved rate is not
strictly positive. -/
def normalize_amount (amount : ℚ) (fin_curr trade_curr : String) (fx : FxTable) : ℚ :=
  let mcap_curr := mcapCurrency trade_curr
  if fin_curr ≠ mcap_curr then
    let fin_rate := fxRate fx fin_curr
    let mcap_rate := fxRate fx mcap_curr
    if 0 < fin_rate ∧ 0 < mcap_rate then amount / fin_rate * mcap_rate else amount
  else amount

/-- Embeds `_convert_and_calc_pct` (`fetch_all.py` lines 301-314): normalize the net
amount into the market-cap currency, form the percentage of market cap, clamp
to `[0, 100]` and round to four decimals. -/
def convert_and_calc_pct (net_val market_cap : ℚ) (fin_curr trade_curr : String)
    (fx : FxTable) : ℚ :=
  let net_val := normalize_amount net_val fin_curr trade_curr fx
  let pct := net_val / market_cap * 100
  round4 (max 0 (min pct 100))

/-- The balance-sheet line items of one company after field-name resolution by
`safe_get` (each field is the resolved numeric value, `0` when absent/NaN). -/
structure BSInput where
  cash_sti_combined : ℚ
  cash_equiv : ℚ
  other_sti : ℚ
  receivables : ℚ
  inventory : ℚ
  other_current : ℚ
  nc_investments : ℚ
  nc_deferred_tax_asset : ℚ
  nc_receivables : ℚ
  payables : ℚ
  current_debt_field : ℚ
  combined_debt_lease : ℚ
  lease : ℚ
  accrued : ℚ
  taxes : ℚ
deriving DecidableEq

/-- Market data for one ticker as read from `ticker.info` in `fetch_company`
(`fetch_all.py` lines 112-117), after the `or 0` defaulting: absent numeric
fields are already `0` here. -/
structure MarketInfo where
  market_cap : ℚ
  trading_currency : String
  financial_currency : String
  current_price : ℚ
  shares_outstanding : ℚ
deriving DecidableEq

/-- A company record as produced by the pipeline and consumed by
`compute_zakaatable_pcts`: each dict key that the consumer reads with
`.get` is an `Option` field. -/
structure CompanyData where
  market_cap : Option ℚ
  trading_currency : Option String
  financial_currency : Option String
  current_price : Option ℚ
  error : Option String
  zakaatable_pct : Option ℚ
  fallback : Bool
  net_zakaatable : Option ℚ
  net_zakaatable_broad : Option ℚ
  net_zakaatable_assets_only : Option ℚ
  assets_total : Option ℚ
  assets_broad_total : Option ℚ
deriving DecidableEq

/-- Resolved cash & short-term investments (`fetch_all.py` lines 159-164):
the combined field, falling back to cash-equivalents plus other short-term
investments when the combined field is zero. -/
def resolved_cash_sti (b : BSInput) : ℚ :=
  if b.cash_sti_combined = 0 then b.cash_equiv + b.other_sti else b.cash_sti_combined

/-- Resolved current debt (`fetch_all.py` lines 186-190): the dedicated field,
falling back to `max(combined debt-and-lease - lease, 0)` when it is zero. -/
def resolved_current_debt (b : BSInput) : ℚ :=
  if b.current_debt_field = 0 then max (b.combined_debt_lease - b.lease) 0
  else b.current_debt_field

/-- Gross current zakaatable assets (`fetch_all.py` line 170). -/
def gross_zakaatable (b : BSInput) : ℚ :=
  resolved_cash_sti b + b.receivables + b.inventory + b.other_current

/-- Non-current liquid assets total (`fetch_all.py` line 177). -/
def nc_liquid_total (b : BSInput) : ℚ :=
  b.nc_investments + b.nc_deferred_tax_asset + b.nc_receivables

/-- Broad gross zakaatable assets (`fetch_all.py` line 179). -/
def gross_zakaatable_broad (b : BSInput) : ℚ :=
  gross_zakaatable b + nc_liquid_total b

/-- Total deductible liabilities (`fetch_all.py` line 195). -/
def total_deductions (b : BSInput) : ℚ :=
  b.payables + resolved_current_debt b + b.accrued + b.taxes

/-- The all-empty test of `fetch_company` (`fetch_all.py` lines 201-202): all
six core resolved line items are exactly zero. -/
def all_core_zero (b : BSInput) : Prop :=
  resolved_cash_sti b = 0 ∧ b.receivables = 0 ∧ b.inventory = 0 ∧
  b.other_current = 0 ∧ b.payables = 0 ∧ resolved_current_debt b = 0

instance (b : BSInput) : Decidable (all_core_zero b) := by
  unfold all_core_zero; infer_instance

/-- The market cap used by `fetch_company` (`fetch_all.py` lines 119-121):
recomputed from shares times price when the reported one is missing (falsy,
i.e. `0`) and both factors are truthy. -/
def effective_market_cap (mk : MarketInfo) : ℚ :=
  if mk.market_cap = 0 ∧ mk.shares_outstanding ≠ 0 ∧ mk.current_price ≠ 0 then
    mk.shares_outstanding * mk.current_price
  else mk.market_cap

/-- Embeds `fetch_company` (`fetch_all.py` lines 102-251), its pure core: from market
data and an optional resolved balance sheet (`none` when no balance sheet is
available) to the company record. -/
def fetch_company (mk : MarketInfo) (bs : Option BSInput) : CompanyData :=
  let market_cap := effective_market_cap mk
  match bs with
  | none =>
    { market_cap := some market_cap
      trading_currency := some mk.trading_currency
      financial_currency := some mk.financial_currency
      current_price := some mk.current_price
      error := some "No balance sheet data available"
      zakaatable_pct := some 25
      fallback := true
      net_zakaatable := none
      net_zakaatable_broad := none
      net_zakaatable_assets_only := none
      assets_total := none
      assets_broad_total := none }
  | some b =>
    if all_core_zero b then
      { market_cap := some market_cap
        trading_currency := some mk.trading_currency
        financial_currency := some mk.financial_currency
        current_price := some mk.current_price
        error := some "Balance sheet data all empty/NaN"
        zakaatable_pct := some 25
        fallback := true
        net_zakaatable := none
        net_zakaatable_broad := none
        net_zakaatable_assets_only := none
        assets_total := none
        assets_broad_total := none }
    else
      { market_cap := some market_cap
        trading_currency := some mk.trading_currency
        financial_currency := some mk.financial_currency
        current_price := some mk.current_price
        error := none
        zakaatable_pct := none
        fallback := false
        net_zakaatable := some (max (gross_zakaatable b - total_deductions b) 0)
        net_zakaatable_broad := some (max (gross_zakaatable_broad b - total_deductions b) 0)
        net_zakaatable_assets_only := some (gross_zakaatable_broad b)
        assets_total := some (gross_zakaatable b)
        assets_broad_total := some (gross_zakaatable_broad b) }

/-- The record stored by `fetch_all_balance_sheets` when `fetch_company`
raises (`fetch_all.py` lines 273-278): only error, fallback percentage and
the fallback flag are present. -/
def errorRecord (reason : String) : CompanyData :=
  { market_cap := none
    trading_currency := none
    financial_currency := none
    current_price := none
    error := some reason
    zakaatable_pct := some 25
    fallback := true
    net_zakaatable := none
    net_zakaatable_broad := none
    net_zakaatable_assets_only := none
    assets_total := none
    assets_broad_total := none }

/-- The empty dict `balance_sheets.get(ticker, {})` used when a ticker has no
stored record (`fetch_all.py` line 355): every key is absent. -/
def emptyRecord : CompanyData :=
  { market_cap := none
    trading_currency := none
    financial_currency := none
    current_price := none
    error := none
    zakaatable_pct := none
    fallback := false
    net_zakaatable := none
    net_zakaatable_broad := none
    net_zakaatable_assets_only := none
    assets_total := none
    assets_broad_total := none }

/-- Embeds `compute_zakaatable_pcts` (`fetch_all.py` lines 317-345): the
(strict, broad, assets-only) zakaatable percentages of a company record.
`if not market_cap or market_cap <= 0` on the number read with default `0`
is exactly `market_cap ≤ 0` over `ℚ`. -/
def compute_zakaatable_pcts (c : CompanyData) (fx : FxTable) : ℚ × ℚ × ℚ :=
  if c.fallback then
    let fb := c.zakaatable_pct.getD 25
    (fb, fb, fb)
  else
    let market_cap := c.market_cap.getD 0
    if market_cap ≤ 0 then (25, 25, 25)
    else
      let fin_curr := c.financial_currency.getD "USD"
      let trade_curr := c.trading_currency.getD "USD"
      let net_strict := c.net_zakaatable.getD 0
      let net_broad := c.net_zakaatable_broad.getD net_strict
      let assets_only := c.net_zakaatable_assets_only.getD
        ((c.assets_broad_total).getD ((c.assets_total).getD net_broad))
      (convert_and_calc_pct net_strict market_cap fin_curr trade_curr fx,
       convert_and_calc_pct net_broad market_cap fin_curr trade_curr fx,
       convert_and_calc_pct assets_only market_cap fin_curr trade_curr fx)

/-- A per-holding entry of the aggregation step of `compute_pension_data`:
its portfolio weight and its three methodology percentages. -/
structure HoldingEntry where
  weight : ℚ
  pct_strict : ℚ
  pct_broad : ℚ
  pct_assets_only : ℚ
deriving DecidableEq

/-- The fund-level aggregation of `compute_pension_data`
(`fetch_all.py` lines 394-407): for each methodology,
`round(sum(weight * pct / 100 for holdings) + cash_pct, 4)`. -/
def fund_aggregate (cash_pct : ℚ) (rs : List HoldingEntry) : ℚ × ℚ × ℚ :=
  (round4 ((rs.map fun r => r.weight * r.pct_strict / 100).sum + cash_pct),
   round4 ((rs.map fun r => r.weight * r.pct_broad / 100).sum + cash_pct),
   round4 ((rs.map fun r => r.weight * r.pct_assets_only / 100).sum + cash_pct))

/-- The price-to-GBP conversion of `compute_isa_data`
(`fetch_all.py` lines 436-448), before the final 4-decimal rounding of the
stored entry: table-based conversion, overridden by an exact division by 100
for pence-quoted trading currencies. -/
def isa_price_gbp (current_price : ℚ) (trade_curr : String) (fx : FxTable) : ℚ :=
  let gbp_rate := fxRate fx "GBP"
  let trade_rate := fxRate fx trade_curr
  let price_gbp := if 0 < trade_rate then current_price / trade_rate * gbp_rate else 0
  if trade_curr = "GBp" ∨ trade_curr = "GBX" then current_price / 100 else price_gbp

/-! ### Helper lemmas about the rounding and clamping arithmetic -/

lemma floor_le_roundHalfEven (q : ℚ) : ⌊q⌋ ≤ roundHalfEven q := by
  unfold roundHalfEven
  split_ifs <;> omega

lemma roundHalfEven_le_floor_add_one (q : ℚ) : roundHalfEven q ≤ ⌊q⌋ + 1 := by
  unfold roundHalfEven
  split_ifs <;> omega

lemma le_roundHalfEven {n : ℤ} {q : ℚ} (h : (n : ℚ) ≤ q) : n ≤ roundHalfEven q :=
  le_trans (Int.le_floor.mpr h) (floor_le_roundHalfEven q)

lemma roundHalfEven_le {n : ℤ} {q : ℚ} (h : q ≤ (n : ℚ)) : roundHalfEven q ≤ n := by
  have hf : ⌊q⌋ ≤ n := by
    have := Int.floor_le_floor h
    simpa using this
  rcases lt_or_eq_of_le hf with hlt | heq
  · exact le_trans (roundHalfEven_le_floor_add_one q) (by omega)
  · have hq : q = (n : ℚ) := by
      have h1 : (n : ℚ) ≤ q := by
        rw [← heq]; exact Int.floor_le q
      exact le_antisymm h h1
    subst hq
    unfold roundHalfEven
    have hfr : Int.fract ((n : ℚ)) = 0 := Int.fract_intCast n
    rw [hfr]
    norm_num

lemma roundHalfEven_mono {a b : ℚ} (h : a ≤ b) : roundHalfEven a ≤ roundHalfEven b := by
  rcases lt_or_ge ⌊a⌋ ⌊b⌋ with hlt | hge
  · exact le_trans (roundHalfEven_le_floor_add_one a)
      (le_trans (by omega) (floor_le_roundHalfEven b))
  · have hfe : ⌊a⌋ = ⌊b⌋ := le_antisymm (Int.floor_le_floor h) hge
    have hfrac : Int.fract a ≤ Int.fract b := by
      unfold Int.fract
      rw [hfe]
      linarith
    unfold roundHalfEven
    rw [hfe]
    split_ifs <;> first | omega | linarith

lemma round4_mono {a b : ℚ} (h : a ≤ b) : round4 a ≤ round4 b := by
  unfold round4
  have h1 : a * 10000 ≤ b * 10000 := by linarith
  have h2 : (roundHalfEven (a * 10000) : ℚ) ≤ (roundHalfEven (b * 10000) : ℚ) := by
    exact_mod_cast roundHalfEven_mono h1
  exact div_le_div_of_nonneg_right h2 (by norm_num) |>.trans_eq rfl

lemma round4_bounds {q : ℚ} (h0 : 0 ≤ q) (h1 : q ≤ 100) :
    0 ≤ round4 q ∧ round4 q ≤ 100 := by
  unfold round4
  have hlo : (0 : ℤ) ≤ roundHalfEven (q * 10000) := by
    apply le_roundHalfEven
    push_cast
    linarith
  have hhi : roundHalfEven (q * 10000) ≤ (1000000 : ℤ) := by
    apply roundHalfEven_le
    push_cast
    linarith
  constructor
  · apply div_nonneg _ (by norm_num)
    exact_mod_cast hlo
  · rw [div_le_iff₀ (by norm_num)]
    calc (roundHalfEven (q * 10000) : ℚ) ≤ 1000000 := by exact_mod_cast hhi
      _ = 100 * 10000 := by norm_num

lemma convert_and_calc_pct_bounds (net_val market_cap : ℚ) (fin_curr trade_curr : String)
    (fx : FxTable) :
    0 ≤ convert_and_calc_pct net_val market_cap fin_curr trade_curr fx ∧
    convert_and_calc_pct net_val market_cap fin_curr trade_curr fx ≤ 100 := by
  unfold convert_and_calc_pct
  apply round4_bounds
  · exact le_max_left 0 _
  · exact max_le (by norm_num) (min_le_right _ _)

lemma normalize_amount_mono {a a' : ℚ} (fin_curr trade_curr : String) (fx : FxTable)
    (h : a ≤ a') :
    normalize_amount a fin_curr trade_curr fx ≤ normalize_amount a' fin_curr trade_curr fx := by
  simp only [normalize_amount]
  split_ifs with h1 h2
  · have hf := h2.1
    have hm := h2.2
    have : a / fxRate fx fin_curr ≤ a' / fxRate fx fin_curr :=
      div_le_div_of_nonneg_right h hf.le
    exact mul_le_mul_of_nonneg_right this hm.le
  · exact h
  · exact h

lemma convert_and_calc_pct_mono {n n' market_cap : ℚ} (fin_curr trade_curr : String)
    (fx : FxTable) (hmc : 0 < market_cap) (h : n ≤ n') :
    convert_and_calc_pct n market_cap fin_curr trade_curr fx ≤
      convert_and_calc_pct n' market_cap fin_curr trade_curr fx := by
  unfold convert_and_calc_pct
  apply round4_mono
  apply max_le_max le_rfl
  apply min_le_min _ le_rfl
  have h1 := normalize_amount_mono fin_curr trade_curr fx h
  have h2 : normalize_amount n fin_curr trade_curr fx / market_cap ≤
      normalize_amount n' fin_curr trade_curr fx / market_cap :=
    div_le_div_of_nonneg_right h1 hmc.le
  exact mul_le_mul_of_nonneg_right h2 (by norm_num)

/-! ### Concrete inputs used by witnesses and counterexamples -/

/-- The empty FX table (every currency code absent). -/
def emptyFx : FxTable := fun _ => none

/-- An FX table with the synthetic pence entries that `fetch_fx_rates`
(`fetch_all.py` lines 57-60) would produce from a GBP rate of 1:
1 USD = 1 GBP and 1 USD = 100 GBp = 100 GBX. -/
def penceFx : FxTable := fun c =>
  if c = "GBp" ∨ c = "GBX" then some 100
  else if c = "GBP" ∨ c = "USD" then some 1
  else none

/-- An FX table whose only entry carries a rate of zero. -/
def zeroRateFx : FxTable := fun c => if c = "EUR" then some 0 else none

/-- An all-zero resolved balance sheet (every line item absent/NaN). -/
def bsAllZero : BSInput := ⟨0, 0, 0, 0, 0, 0, 0, 0, 0, 0, 0, 0, 0, 0, 0⟩

/-- A small USD balance sheet: cash 100, receivables 20, payables 30. -/
def bsSmall : BSInput := ⟨100, 0, 0, 20, 0, 0, 0, 0, 0, 30, 0, 0, 0, 0, 0⟩

/-- Market data of a USD company with market cap 1000 and price 10. -/
def mkUSD : MarketInfo := ⟨1000, "USD", "USD", 10, 0⟩

/-- A company record fabricated with a negative market cap and a large net
amount, exercising the degenerate-market-cap branch. -/
def negMcapRecord : CompanyData :=
  { market_cap := some (-5)
    trading_currency := some "USD"
    financial_currency := some "USD"
    current_price := some 1
    error := none
    zakaatable_pct := none
    fallback := false
    net_zakaatable := some 999
    net_zakaatable_broad := some 999
    net_zakaatable_assets_only := some 999
    assets_total := some 999
    assets_broad_total := some 999 }

/-! ### Shared structural lemmas about the pipeline's records -/

/-- Every record `fetch_company` produces stores either no fallback
percentage or exactly `25`. -/
lemma fetch_company_pct_invariant (mk : MarketInfo) (bs : Option BSInput) :
    (fetch_company mk bs).zakaatable_pct = none ∨
      (fetch_company mk bs).zakaatable_pct = some 25 := by
  cases bs with
  | none => simp [fetch_company]
  | some b =>
      by_cases hz : all_core_zero b <;> simp [fetch_company, hz]

/-- All three components of a percentage triple lie in `[0, 100]`. -/
def pctsInRange (p : ℚ × ℚ × ℚ) : Prop :=
  (0 ≤ p.1 ∧ p.1 ≤ 100) ∧ (0 ≤ p.2.1 ∧ p.2.1 ≤ 100) ∧ (0 ≤ p.2.2 ∧ p.2.2 ≤ 100)

/-- The function `compute_zakaatable_pcts` stays within `[0, 100]` on every record whose
stored fallback percentage (if any) is `25`. -/
lemma pcts_in_range_of_pct_invariant (c : CompanyData) (fx : FxTable)
    (hp : c.zakaatable_pct = none ∨ c.zakaatable_pct = some 25) :
    pctsInRange (compute_zakaatable_pcts c fx) := by
  unfold compute_zakaatable_pcts pctsInRange
  dsimp only
  split_ifs with hfb hmc
  · rcases hp with hp | hp <;> simp [hp] <;> norm_num
  · norm_num
  · exact ⟨convert_and_calc_pct_bounds _ _ _ _ _,
      convert_and_calc_pct_bounds _ _ _ _ _,
      convert_and_calc_pct_bounds _ _ _ _ _⟩

/-! ### Claim theorems -/

/-- C1: For every company record the pipeline produces — any record fetched by
`fetch_company`, any fetch-exception record, and the empty record used for an
absent ticker — and every rate table, each of the three methodology
percentages (strict, broad, assets-only) returned by
`compute_zakaatable_pcts` lies in the closed interval `[0, 100]`. -/
theorem c1_pcts_in_unit_interval (mk : MarketInfo) (bs : Option BSInput)
    (fx : FxTable) (reason : String) :
    pctsInRange (compute_zakaatable_pcts (fetch_company mk bs) fx) ∧
    pctsInRange (compute_zakaatable_pcts (errorRecord reason) fx) ∧
    pctsInRange (compute_zakaatable_pcts emptyRecord fx) :=
  ⟨pcts_in_range_of_pct_invariant _ fx (fetch_company_pct_invariant mk bs),
   pcts_in_range_of_pct_invariant _ fx (Or.inr rfl),
   pcts_in_range_of_pct_invariant _ fx (Or.inl rfl)⟩

/-- C2: For every company record whose market_cap is absent, zero, or
negative, `compute_zakaatable_pcts` returns exactly `25.0` for all three
methodologies, regardless of the net-amount values in the record. The
hypothesis `hp` is the pipeline's record invariant: a record is either a
non-fallback record, or a fallback record, which the pipeline always stores
with `zakaatable_pct = 25.0` (`fetch_all.py` lines 151, 212, 276). -/
theorem c2_degenerate_market_cap_25 (c : CompanyData) (fx : FxTable)
    (hp : c.fallback = false ∨ c.zakaatable_pct = some 25)
    (hmc : c.market_cap.getD 0 ≤ 0) :
    compute_zakaatable_pcts c fx = (25, 25, 25) := by
  unfold compute_zakaatable_pcts
  by_cases hfb : c.fallback
  · have h25 : c.zakaatable_pct = some 25 := by
      rcases hp with hp | hp
      · rw [hp] at hfb; exact absurd hfb (by simp)
      · exact hp
    simp [hfb, h25]
  · simp [hfb, hmc]

/-- Witness for C2: a fabricated record with market cap `-5` and net amounts
`999` still yields `(25, 25, 25)`. -/
theorem c2_degenerate_market_cap_25_witness :
    ((negMcapRecord.fallback = false ∨ negMcapRecord.zakaatable_pct = some 25) ∧
      negMcapRecord.market_cap.getD 0 ≤ 0) ∧
    compute_zakaatable_pcts negMcapRecord emptyFx = (25, 25, 25) :=
  ⟨⟨Or.inl rfl, by decide⟩,
   c2_degenerate_market_cap_25 negMcapRecord emptyFx (Or.inl rfl) (by decide)⟩

/-- C3 counterexample: on an all-zero balance sheet the record is marked
fallback, but the stored reason is `"Balance sheet data all empty/NaN"`
(`fetch_all.py` line 211), not the claimed `"balance sheet data all empty"`,
so the claim as stated fails at this input. -/
theorem c3_reason_string_counterexample :
    ¬ ((fetch_company mkUSD (some bsAllZero)).fallback = true ∧
       (fetch_company mkUSD (some bsAllZero)).error =
         some "balance sheet data all empty") := by
  have hz : all_core_zero bsAllZero := by
    norm_num [all_core_zero, bsAllZero, resolved_cash_sti, resolved_current_debt]
  have herr : (fetch_company mkUSD (some bsAllZero)).error =
      some "Balance sheet data all empty/NaN" := by
    simp [fetch_company, hz]
  rintro ⟨-, he⟩
  rw [herr] at he
  simp at he

/-- C3 (amended): for every balance-sheet record whose six core line items
(cash-and-short-term-investments, receivables, inventory, other-current,
payables, current-debt) all resolve to exactly `0.0`, `fetch_company` marks
the company as fallback with reason `"Balance sheet data all empty/NaN"`
(the code's actual string), and all three downstream methodology
percentages equal `25.0`. -/
theorem c3_all_zero_is_fallback (mk : MarketInfo) (b : BSInput) (fx : FxTable)
    (hz : all_core_zero b) :
    (fetch_company mk (some b)).fallback = true ∧
    (fetch_company mk (some b)).error = some "Balance sheet data all empty/NaN" ∧
    compute_zakaatable_pcts (fetch_company mk (some b)) fx = (25, 25, 25) := by
  simp [fetch_company, compute_zakaatable_pcts, hz]

/-- Witness for C3 (amended) at the all-zero balance sheet. -/
theorem c3_all_zero_is_fallback_witness :
    all_core_zero bsAllZero ∧
    ((fetch_company mkUSD (some bsAllZero)).fallback = true ∧
     (fetch_company mkUSD (some bsAllZero)).error =
       some "Balance sheet data all empty/NaN" ∧
     compute_zakaatable_pcts (fetch_company mkUSD (some bsAllZero)) emptyFx =
       (25, 25, 25)) := by
  have hz : all_core_zero bsAllZero := by
    norm_num [all_core_zero, bsAllZero, resolved_cash_sti, resolved_current_debt]
  exact ⟨hz, c3_all_zero_is_fallback mkUSD bsAllZero emptyFx hz⟩

/-- C5 counterexample: with the pipeline's own synthetic pence rates
(`1 USD = 100 GBp`, `1 USD = 1 GBP`), normalizing `1` from `"GBp"` to
`"GBp"` is not a no-op: the target collapses to `"GBP"` first, so the amount
is converted from pence into pounds even though the two codes are equal. -/
theorem c5_minor_unit_counterexample :
    normalize_amount 1 "GBp" "GBp" penceFx ≠ 1 := by
  have h : normalize_amount 1 "GBp" "GBp" penceFx = 1 / 100 * 1 := rfl
  rw [h]
  norm_num

/-- C5 (amended): normalizing any amount from a currency code to the same
code is a no-op for every code that is not a minor-unit pence code
(`"GBp"`/`"GBX"`); for those two codes the target is collapsed to `"GBP"`
first and a genuine conversion takes place. -/
theorem c5_same_currency_noop (x : ℚ) (c : String) (fx : FxTable)
    (h : ¬ (c = "GBp" ∨ c = "GBX")) :
    normalize_amount x c c fx = x := by
  have hm : mcapCurrency c = c := by unfold mcapCurrency; exact if_neg h
  simp [normalize_amount, hm]

/-- Witness for C5 (amended) at `c = "USD"`. -/
theorem c5_same_currency_noop_witness :
    (¬ ("USD" = "GBp" ∨ "USD" = "GBX")) ∧
    normalize_amount 7 "USD" "USD" penceFx = 7 :=
  ⟨by decide, c5_same_currency_noop 7 "USD" penceFx (by decide)⟩

/-- C6 counterexample: with the pipeline's synthetic pence rates, both
`"USD"` and `"GBp"` carry strictly positive rates, yet converting `1` from
`"USD"` to `"GBp"` and back yields `1/100`, not `1`: the forward leg uses the
collapsed target rate (`"GBP"`) while the return leg uses the `"GBp"` source
rate. -/
theorem c6_round_trip_counterexample :
    (0 < fxRate penceFx "USD" ∧ 0 < fxRate penceFx "GBp") ∧
    normalize_amount (normalize_amount 1 "USD" "GBp" penceFx) "GBp" "USD" penceFx ≠ 1 := by
  refine ⟨⟨?_, ?_⟩, ?_⟩
  · rw [show fxRate penceFx "USD" = 1 from rfl]; norm_num
  · rw [show fxRate penceFx "GBp" = 100 from rfl]; norm_num
  · have h : normalize_amount (normalize_amount 1 "USD" "GBp" penceFx) "GBp" "USD" penceFx
        = 1 / 1 * 1 / 100 * 1 := rfl
    rw [h]
    norm_num

/-- C6 (amended): for all currency codes `A` and `B` that are not minor-unit
pence codes, and every rate table whose resolved rates for `A` and `B`
(absent codes resolving to `1`) are strictly positive, converting an amount
from `A` to `B` and then back from `B` to `A` returns the original amount. -/
theorem c6_round_trip (x : ℚ) (A B : String) (fx : FxTable)
    (hA : ¬ (A = "GBp" ∨ A = "GBX")) (hB : ¬ (B = "GBp" ∨ B = "GBX"))
    (hrA : 0 < fxRate fx A) (hrB : 0 < fxRate fx B) :
    normalize_amount (normalize_amount x A B fx) B A fx = x := by
  have hmA : mcapCurrency A = A := by unfold mcapCurrency; exact if_neg hA
  have hmB : mcapCurrency B = B := by unfold mcapCurrency; exact if_neg hB
  by_cases hAB : A = B
  · subst hAB
    simp [normalize_amount, hmA]
  · have h1 : normalize_amount x A B fx = x / fxRate fx A * fxRate fx B := by
      simp only [normalize_amount, hmB]
      rw [if_pos hAB, if_pos ⟨hrA, hrB⟩]
    have hBA : ¬ B = A := fun h => hAB h.symm
    have h2 : normalize_amount (x / fxRate fx A * fxRate fx B) B A fx =
        x / fxRate fx A * fxRate fx B / fxRate fx B * fxRate fx A := by
      simp only [normalize_amount, hmA]
      rw [if_pos hBA, if_pos ⟨hrB, hrA⟩]
    rw [h1, h2]
    field_simp
    ring

/-- Witness for C6 (amended) at `A = "USD"`, `B = "EUR"` over the pence
table (`"EUR"` is absent, so it resolves to rate `1`). -/
theorem c6_round_trip_witness :
    ((¬ ("USD" = "GBp" ∨ "USD" = "GBX")) ∧ (¬ ("EUR" = "GBp" ∨ "EUR" = "GBX")) ∧
      0 < fxRate penceFx "USD" ∧ 0 < fxRate penceFx "EUR") ∧
    normalize_amount (normalize_amount 7 "USD" "EUR" penceFx) "EUR" "USD" penceFx = 7 :=
  ⟨⟨by decide, by decide,
    by rw [show fxRate penceFx "USD" = 1 from rfl]; norm_num,
    by rw [show fxRate penceFx "EUR" = 1 from rfl]; norm_num⟩,
   c6_round_trip 7 "USD" "EUR" penceFx (by decide) (by decide)
     (by rw [show fxRate penceFx "USD" = 1 from rfl]; norm_num)
     (by rw [show fxRate penceFx "EUR" = 1 from rfl]; norm_num)⟩

/-- C7: for every current price quoted in a minor-unit pence code
(`"GBp"`/`"GBX"`) and every rate table, the computed major-unit (GBP) price
equals the raw price divided by `100` exactly, independent of the table's
contents. -/
theorem c7_pence_price_div_100 (p : ℚ) (c : String) (fx : FxTable)
    (h : c = "GBp" ∨ c = "GBX") :
    isa_price_gbp p c fx = p / 100 := by
  simp only [isa_price_gbp]
  rw [if_pos h]

/-- Witness for C7: a price of `12345` pence converts to `123.45` pounds,
over the empty rate table. -/
theorem c7_pence_price_div_100_witness :
    ("GBp" = "GBp" ∨ "GBp" = "GBX") ∧
    isa_price_gbp 12345 "GBp" emptyFx = 12345 / 100 :=
  ⟨Or.inl rfl, c7_pence_price_div_100 12345 "GBp" emptyFx (Or.inl rfl)⟩

/-- C8: the normalizer's safety contract. A currency code absent from the
table resolves to rate `1` (no failure is raised), and whenever either
resolved rate is not strictly positive the conversion is skipped and the
original amount is returned unchanged — so the division in the conversion
branch only ever runs with strictly positive rates. -/
theorem c8_normalizer_never_divides_by_nonpositive (x : ℚ) (f t : String) (fx : FxTable) :
    (fx f = none → fxRate fx f = 1) ∧
    (fx (mcapCurrency t) = none → fxRate fx (mcapCurrency t) = 1) ∧
    (¬ (0 < fxRate fx f ∧ 0 < fxRate fx (mcapCurrency t)) →
      normalize_amount x f t fx = x) := by
  refine ⟨fun h => ?_, fun h => ?_, fun h => ?_⟩
  · simp [fxRate, h]
  · simp [fxRate, h]
  · simp only [normalize_amount]
    split_ifs with h1 <;> rfl

/-- Witness for C8: an absent code resolves to rate `1`, and a zero `"EUR"`
rate makes the conversion a no-op. -/
theorem c8_normalizer_never_divides_by_nonpositive_witness :
    fxRate zeroRateFx "CHF" = 1 ∧ normalize_amount 5 "EUR" "USD" zeroRateFx = 5 :=
  ⟨(c8_normalizer_never_divides_by_nonpositive 5 "CHF" "USD" zeroRateFx).1 (by decide),
   (c8_normalizer_never_divides_by_nonpositive 5 "EUR" "USD" zeroRateFx).2.2 (by decide)⟩

/-- Round-half-to-even fixes integers. -/
lemma roundHalfEven_intCast (n : ℤ) : roundHalfEven (n : ℚ) = n := by
  unfold roundHalfEven
  rw [Int.fract_intCast, Int.floor_intCast]
  norm_num

/-- The rounding `round4` fixes any rational that is an integer multiple of `1/10000`. -/
lemma round4_int_div (n : ℤ) : round4 ((n : ℚ) / 10000) = (n : ℚ) / 10000 := by
  unfold round4
  rw [div_mul_cancel₀ _ (by norm_num : (10000 : ℚ) ≠ 0), roundHalfEven_intCast]

/-- C4: the fund-level aggregate for each of the three methodologies equals
the cash percentage plus the weighted sum `Σ (weight/100 × holding pct)`,
rounded to four decimals; and at the spec's concrete scenario (weights 60 and
30, cash 10, strict percentages 9 and 50) the strict fund percentage is
exactly `30.4000`. -/
theorem c4_fund_aggregate_formula :
    (∀ (cash_pct : ℚ) (rs : List HoldingEntry),
      fund_aggregate cash_pct rs =
        (round4 (cash_pct + (rs.map fun r => r.weight / 100 * r.pct_strict).sum),
         round4 (cash_pct + (rs.map fun r => r.weight / 100 * r.pct_broad).sum),
         round4 (cash_pct + (rs.map fun r => r.weight / 100 * r.pct_assets_only).sum))) ∧
    (fund_aggregate 10 [⟨60, 9, 9, 9⟩, ⟨30, 50, 50, 50⟩]).1 = 304 / 10 := by
  constructor
  · intro cash_pct rs
    have e1 : (fun r : HoldingEntry => r.weight * r.pct_strict / 100)
        = fun r : HoldingEntry => r.weight / 100 * r.pct_strict := by
      funext r; ring
    have e2 : (fun r : HoldingEntry => r.weight * r.pct_broad / 100)
        = fun r : HoldingEntry => r.weight / 100 * r.pct_broad := by
      funext r; ring
    have e3 : (fun r : HoldingEntry => r.weight * r.pct_assets_only / 100)
        = fun r : HoldingEntry => r.weight / 100 * r.pct_assets_only := by
      funext r; ring
    unfold fund_aggregate
    rw [e1, e2, e3, add_comm _ cash_pct, add_comm _ cash_pct, add_comm _ cash_pct]
  · have h1 : (fund_aggregate 10 [⟨60, 9, 9, 9⟩, ⟨30, 50, 50, 50⟩]).1
        = round4 (60 * 9 / 100 + (30 * 50 / 100 + 0) + 10) := rfl
    have h2 : (60 * 9 / 100 + (30 * 50 / 100 + 0) + 10 : ℚ) = ((304000 : ℤ) : ℚ) / 10000 := by
      norm_num
    rw [h1, h2, round4_int_div]
    norm_num

/-- C9: the fund-level aggregation is order-independent — permuting the
holdings list leaves all three methodology aggregates unchanged. -/
theorem c9_aggregate_perm_invariant (cash_pct : ℚ) (rs rs' : List HoldingEntry)
    (h : rs.Perm rs') :
    fund_aggregate cash_pct rs = fund_aggregate cash_pct rs' := by
  unfold fund_aggregate
  rw [(h.map fun r => r.weight * r.pct_strict / 100).sum_eq,
      (h.map fun r => r.weight * r.pct_broad / 100).sum_eq,
      (h.map fun r => r.weight * r.pct_assets_only / 100).sum_eq]

/-- A holding with weight 60. -/
def holdA : HoldingEntry := ⟨60, 9, 9, 9⟩

/-- A holding with weight 30. -/
def holdB : HoldingEntry := ⟨30, 50, 50, 50⟩

/-- Witness for C9 at a two-element holdings list and its transposition. -/
theorem c9_aggregate_perm_invariant_witness :
    ([holdA, holdB].Perm [holdB, holdA]) ∧
    fund_aggregate 10 [holdA, holdB] = fund_aggregate 10 [holdB, holdA] :=
  ⟨List.Perm.swap holdB holdA [],
   c9_aggregate_perm_invariant 10 _ _ (List.Perm.swap holdB holdA [])⟩

/-- The non-fallback record `fetch_company` builds from a usable balance
sheet. -/
lemma fetch_company_of_not_all_zero (mk : MarketInfo) (b : BSInput)
    (hz : ¬ all_core_zero b) :
    fetch_company mk (some b) =
      { market_cap := some (effective_market_cap mk)
        trading_currency := some mk.trading_currency
        financial_currency := some mk.financial_currency
        current_price := some mk.current_price
        error := none
        zakaatable_pct := none
        fallback := false
        net_zakaatable := some (max (gross_zakaatable b - total_deductions b) 0)
        net_zakaatable_broad := some (max (gross_zakaatable_broad b - total_deductions b) 0)
        net_zakaatable_assets_only := some (gross_zakaatable_broad b)
        assets_total := some (gross_zakaatable b)
        assets_broad_total := some (gross_zakaatable_broad b) } := by
  simp [fetch_company, hz]

/-- C10: for every non-fallback company record fetched from a balance sheet,
with positive market cap and non-negative resolved non-current liquid total,
deductible-liability total, and gross current zakaatable total, the three
methodology percentages are ordered: strict ≤ broad ≤ assets-only. -/
theorem c10_strict_le_broad_le_assets_only (mk : MarketInfo) (b : BSInput) (fx : FxTable)
    (hfb : (fetch_company mk (some b)).fallback = false)
    (hmc : 0 < (fetch_company mk (some b)).market_cap.getD 0)
    (hnc : 0 ≤ nc_liquid_total b)
    (hd : 0 ≤ total_deductions b)
    (hg : 0 ≤ gross_zakaatable b) :
    (compute_zakaatable_pcts (fetch_company mk (some b)) fx).1 ≤
      (compute_zakaatable_pcts (fetch_company mk (some b)) fx).2.1 ∧
    (compute_zakaatable_pcts (fetch_company mk (some b)) fx).2.1 ≤
      (compute_zakaatable_pcts (fetch_company mk (some b)) fx).2.2 := by
  by_cases hz : all_core_zero b
  · exfalso
    rw [show (fetch_company mk (some b)).fallback = true by simp [fetch_company, hz]] at hfb
    exact absurd hfb (by simp)
  · rw [fetch_company_of_not_all_zero mk b hz] at hmc ⊢
    simp only [Option.getD_some] at hmc
    simp only [compute_zakaatable_pcts, Option.getD_some, Bool.false_eq_true, if_false,
      if_neg (not_le.mpr hmc)]
    have hnet1 : max (gross_zakaatable b - total_deductions b) 0 ≤
        max (gross_zakaatable_broad b - total_deductions b) 0 := by
      apply max_le_max _ le_rfl
      unfold gross_zakaatable_broad
      linarith
    have hnet2 : max (gross_zakaatable_broad b - total_deductions b) 0 ≤
        gross_zakaatable_broad b := by
      apply max_le
      · linarith
      · unfold gross_zakaatable_broad
        linarith
    exact ⟨convert_and_calc_pct_mono _ _ fx hmc hnet1,
      convert_and_calc_pct_mono _ _ fx hmc hnet2⟩

/-- Witness for C10 at a USD company with cash 100, receivables 20,
payables 30 and market cap 1000. -/
theorem c10_strict_le_broad_le_assets_only_witness :
    ((fetch_company mkUSD (some bsSmall)).fallback = false ∧
     0 < (fetch_company mkUSD (some bsSmall)).market_cap.getD 0 ∧
     0 ≤ nc_liquid_total bsSmall ∧ 0 ≤ total_deductions bsSmall ∧
     0 ≤ gross_zakaatable bsSmall) ∧
    ((compute_zakaatable_pcts (fetch_company mkUSD (some bsSmall)) emptyFx).1 ≤
      (compute_zakaatable_pcts (fetch_company mkUSD (some bsSmall)) emptyFx).2.1 ∧
     (compute_zakaatable_pcts (fetch_company mkUSD (some bsSmall)) emptyFx).2.1 ≤
      (compute_zakaatable_pcts (fetch_company mkUSD (some bsSmall)) emptyFx).2.2) := by
  have hz : ¬ all_core_zero bsSmall := by
    norm_num [all_core_zero, bsSmall, resolved_cash_sti]
  have h1 : (fetch_company mkUSD (some bsSmall)).fallback = false := by
    rw [fetch_company_of_not_all_zero mkUSD bsSmall hz]
  have h2 : 0 < (fetch_company mkUSD (some bsSmall)).market_cap.getD 0 := by
    rw [fetch_company_of_not_all_zero mkUSD bsSmall hz]
    have he : effective_market_cap mkUSD = 1000 := by
      norm_num [effective_market_cap, mkUSD]
    simp only [Option.getD_some, he]
    norm_num
  have h3 : 0 ≤ nc_liquid_total bsSmall := by
    norm_num [nc_liquid_total, bsSmall]
  have h4 : 0 ≤ total_deductions bsSmall := by
    norm_num [total_deductions, bsSmall, resolved_current_debt]
  have h5 : 0 ≤ gross_zakaatable bsSmall := by
    norm_num [gross_zakaatable, bsSmall, resolved_cash_sti]
  exact ⟨⟨h1, h2, h3, h4, h5⟩,
    c10_strict_le_broad_le_assets_only mkUSD bsSmall emptyFx h1 h2 h3 h4 h5⟩
